import Mathlib

/-!
Shallow embedding of the sentiment classifier in
`src/components/SentimentDemo.tsx` (function `detectSentiment`).

Input strings are modelled as `List Char`: the JavaScript `Array.from(text)`
iterates Unicode code points, which matches the Lean `Char` type (one Unicode
scalar value per element).  Word scores use exact rationals (`ℚ`, with the
source literal `1.6` denoting 8/5) and confidences are real numbers,
with the JavaScript `Math.sqrt` function modelled as `Real.sqrt`.
-/

/-- The three sentiment labels produced by the classifier. -/
inductive Sentiment
  | positive
  | neutral
  | negative
deriving DecidableEq

/-- The whitespace code points recognised by the JavaScript `\s` regex class
and `String.prototype.trim` (space, tab, line terminators, NBSP, the
Unicode space separators, narrow no-break space, and the BOM). -/
def wsChars : List Char :=
  [' ', '\t', '\n', '\r', '\x0b', '\x0c', '\u00A0', '\u1680',
   '\u2000', '\u2001', '\u2002', '\u2003', '\u2004', '\u2005',
   '\u2006', '\u2007', '\u2008', '\u2009', '\u200A', '\u2028',
   '\u2029', '\u202F', '\u205F', '\u3000', '\uFEFF']

/-- Whether a code point is JavaScript whitespace. -/
def isWS (c : Char) : Bool := decide (c ∈ wsChars)

/-- The fixed positive emoji set (source line 21).  Each entry is the list
of code points of the corresponding JavaScript string; the heart entry
`"❤️"` consists of two code points (base character plus the
U+FE0F variation selector). -/
def positiveEmojis : List (List Char) :=
  (["😊", "😃", "😄", "😁", "🙂", "😀", "😍", "🥰", "😘", "🤗", "🎉",
    "👍", "❤️", "💖", "✨", "🌟", "💯"]).map String.toList

/-- The fixed negative emoji set (source line 22); the frowning-face entry
`"☹️"` consists of two code points. -/
def negativeEmojis : List (List Char) :=
  (["😢", "😭", "😞", "😔", "☹️", "🙁", "😣", "😖", "😫", "😩",
    "😤", "😠", "😡", "💔", "👎"]).map String.toList

/-- The fixed neutral emoji set (source line 23). -/
def neutralEmojis : List (List Char) :=
  (["😐", "😑", "🤔", "😶", "🙄", "🤷"]).map String.toList

/-- The per-code-point emoji scan (source lines 25-33): for each code point
of the input, its singleton string is tested for membership in the three
sets in order (positive, else negative, else neutral), tallying
`(posEmoji, negEmoji, neuEmoji)`. -/
def emojiCounts : List Char → ℕ × ℕ × ℕ
  | [] => (0, 0, 0)
  | c :: cs =>
    let r := emojiCounts cs
    if [c] ∈ positiveEmojis then (r.1 + 1, r.2.1, r.2.2)
    else if [c] ∈ negativeEmojis then (r.1, r.2.1 + 1, r.2.2)
    else if [c] ∈ neutralEmojis then (r.1, r.2.1, r.2.2 + 1)
    else r

/-- `posEmoji` counter of the scan. -/
def posEmoji (t : List Char) : ℕ := (emojiCounts t).1

/-- `negEmoji` counter of the scan. -/
def negEmoji (t : List Char) : ℕ := (emojiCounts t).2.1

/-- `neuEmoji` counter of the scan. -/
def neuEmoji (t : List Char) : ℕ := (emojiCounts t).2.2

/-- `totalEmoji = posEmoji + negEmoji + neuEmoji` (source line 35). -/
def totalEmoji (t : List Char) : ℕ := posEmoji t + negEmoji t + neuEmoji t

/-- Characters kept by the normalisation regex class: lowercase ASCII
letters, digits, the apostrophe (code point 39), and the underscore. -/
def isTokenChar (c : Char) : Bool :=
  ('a' ≤ c && c ≤ 'z') || ('0' ≤ c && c ≤ '9') || c = Char.ofNat 39 || c = '_'

/-- ASCII lower-casing, the fragment of `toLowerCase` relevant to the
normalisation (all lexicon words and the kept character class are ASCII). -/
def toLowerChar (c : Char) : Char :=
  if 'A' ≤ c && c ≤ 'Z' then Char.ofNat (c.toNat + 32) else c

/-- One character of `normalize` (source line 38): lower-case, then replace
every character outside the kept class and whitespace with a space
(whitespace itself is kept). -/
def normChar (c : Char) : Char :=
  let c' := toLowerChar c
  if isTokenChar c' || isWS c' then c' else ' '

/-- Split on runs of whitespace, dropping empty fragments: the model of
`.split(/\s+/).filter(Boolean)` (source line 39).  The first argument
accumulates the current word in reverse. -/
def wordsAux : List Char → List Char → List (List Char)
  | acc, [] => if acc.isEmpty then [] else [acc.reverse]
  | acc, c :: cs =>
    if isWS c then
      if acc.isEmpty then wordsAux [] cs else acc.reverse :: wordsAux [] cs
    else wordsAux (c :: acc) cs

/-- `tokens = normalize(text).split(/\s+/).filter(Boolean)` (source
line 39). -/
def tokenize (t : List Char) : List (List Char) :=
  wordsAux [] (t.map normChar)

/-- The positive word lexicon (source line 41). -/
def positiveWords : List (List Char) :=
  (["good", "great", "awesome", "amazing", "love", "loved", "like",
    "liked", "fantastic", "excellent", "best", "nice", "happy", "joy",
    "glad", "wonderful", "helpful", "brilliant", "recommend",
    "cool"]).map String.toList

/-- The negative word lexicon (source line 42). -/
def negativeWords : List (List Char) :=
  (["bad", "terrible", "awful", "hate", "hated", "dislike", "disliked",
    "worst", "poor", "sad", "angry", "disappointed", "disappointing",
    "broken", "bug", "spam", "boring", "annoying", "trash",
    "waste"]).map String.toList

/-- The negation token set (source line 43). -/
def negations : List (List Char) :=
  (["not", "never", "no", "dont", "doesnt", "didnt", "isnt", "wasnt",
    "cant", "cannot", "wont", "won\x27t"]).map String.toList

/-- The intensifier token set (source line 44). -/
def intensifiers : List (List Char) :=
  (["very", "really", "extremely", "super", "totally", "completely",
    "absolutely", "so"]).map String.toList

/-- Adjustment of a base weight by the single immediately preceding token
(source lines 51-52 and 56-57): scaled by 1.6 when that token is an
intensifier, then negated when that token is a negation; for the first
token (`prev = none`, i.e. `i = 0`) no adjustment applies. -/
def adjustWeight : Option (List Char) → ℚ → ℚ
  | none, base => base
  | some p, base =>
    let w1 := if p ∈ intensifiers then base * 1.6 else base
    if p ∈ negations then w1 * (-1) else w1

/-- The score contribution of one token given the immediately preceding
token (source lines 49-59): base weight `+1` for a positive-lexicon word,
`-1` for a negative-lexicon word (the positive set is tested first),
`0` otherwise, adjusted by `adjustWeight`. -/
def contrib (prev : Option (List Char)) (w : List Char) : ℚ :=
  if w ∈ positiveWords then adjustWeight prev 1
  else if w ∈ negativeWords then adjustWeight prev (-1)
  else 0

/-- The word-score loop (source lines 46-60), carrying the previous token. -/
def lexScoreAux : Option (List Char) → List (List Char) → ℚ
  | _, [] => 0
  | prev, w :: ws => contrib prev w + lexScoreAux (some w) ws

/-- Lexical score of a token sequence. -/
def lexScoreTokens (ts : List (List Char)) : ℚ := lexScoreAux none ts

/-- The variable `score` of the source: lexical score of the input. -/
def lexScore (t : List Char) : ℚ := lexScoreTokens (tokenize t)

/-- `wordSentiment` (source line 64): positive when `score > 0.5`, negative
when `score < -0.5`, neutral otherwise. -/
def wordSentiment (score : ℚ) : Sentiment :=
  if score > 0.5 then Sentiment.positive
  else if score < -0.5 then Sentiment.negative
  else Sentiment.neutral

/-- `wordConfidence` (source line 66):
`min(0.95, 0.6 + min(1, |score| / max(1, sqrt(tokens.length))) * 0.35)`. -/
noncomputable def wordConfidence (score : ℚ) (n : ℕ) : ℝ :=
  min 0.95 (0.6 + min 1 (|(score : ℝ)| / max 1 (Real.sqrt n)) * 0.35)

/-- The lexical confidence of an input. -/
noncomputable def lexConfidence (t : List Char) : ℝ :=
  wordConfidence (lexScore t) (tokenize t).length

/-- `emojiSentiment` (source line 71): the dominant emoji label, with all
ties (including an equal positive/negative split) resolving to neutral. -/
def emojiSentiment (t : List Char) : Sentiment :=
  if posEmoji t > negEmoji t ∧ posEmoji t > neuEmoji t then Sentiment.positive
  else if negEmoji t > posEmoji t ∧ negEmoji t > neuEmoji t then Sentiment.negative
  else Sentiment.neutral

/-- `emojiConfidenceBase = 0.75 + min(0.2, totalEmoji / 10)` (source
line 73). -/
def emojiConfidenceBase (t : List Char) : ℚ :=
  0.75 + min 0.2 ((totalEmoji t : ℚ) / 10)

/-- `combinedConfidence = min(0.98, emojiConfidenceBase * 0.75 +
wordConfidence * 0.25)` (source line 75). -/
noncomputable def combinedConfidence (t : List Char) : ℝ :=
  min 0.98 ((emojiConfidenceBase t : ℝ) * 0.75 + lexConfidence t * 0.25)

/-- The classifier `detectSentiment` (source lines 17-93).  Returns `none`
for empty/whitespace-only input; when emoji were counted it runs the
agreement / emoji-dominance / lexical-fallback decision chain; otherwise
it returns the word-based result, or `none` when there are no tokens. -/
noncomputable def detectSentiment (t : List Char) : Option (Sentiment × ℝ) :=
  if t.all isWS then none
  else if 0 < totalEmoji t then
    if wordSentiment (lexScore t) ≠ Sentiment.neutral ∧
        wordSentiment (lexScore t) = emojiSentiment t then
      some (emojiSentiment t, min 0.99 (combinedConfidence t + 0.03))
    else if 1 ≤ |(posEmoji t : ℤ) - (negEmoji t : ℤ)| then
      some (emojiSentiment t, combinedConfidence t)
    else
      some (wordSentiment (lexScore t), lexConfidence t)
  else if (tokenize t).length = 0 then none
  else some (wordSentiment (lexScore t), lexConfidence t)

/-- The emoji tally computed against the emoji sets restricted to their
single-code-point entries.  Comparing it with `emojiCounts` states that the
two-code-point entries (the heart and frowning-face strings with the
U+FE0F variation selector) can never be matched by the per-code-point
scan. -/
def emojiCountsPruned : List Char → ℕ × ℕ × ℕ
  | [] => (0, 0, 0)
  | c :: cs =>
    let r := emojiCountsPruned cs
    if [c] ∈ positiveEmojis.filter (fun e => e.length == 1) then
      (r.1 + 1, r.2.1, r.2.2)
    else if [c] ∈ negativeEmojis.filter (fun e => e.length == 1) then
      (r.1, r.2.1 + 1, r.2.2)
    else if [c] ∈ neutralEmojis.filter (fun e => e.length == 1) then
      (r.1, r.2.1, r.2.2 + 1)
    else r

/-! ### Structural lemmas about the classifier -/

lemma ws_not_emoji :
    ∀ c ∈ wsChars, [c] ∉ positiveEmojis ∧ [c] ∉ negativeEmojis ∧ [c] ∉ neutralEmojis := by
  decide

lemma emojiCounts_blank (t : List Char) (h : t.all isWS = true) :
    emojiCounts t = (0, 0, 0) := by
  induction t with
  | nil => rfl
  | cons c cs ih =>
    rw [List.all_cons, Bool.and_eq_true] at h
    have hc : c ∈ wsChars := of_decide_eq_true h.1
    obtain ⟨h1, h2, h3⟩ := ws_not_emoji c hc
    simp only [emojiCounts, ih h.2]
    rw [if_neg h1, if_neg h2, if_neg h3]

lemma totalEmoji_pos_not_blank (t : List Char) (h : 0 < totalEmoji t) :
    t.all isWS = false := by
  by_contra hb
  rw [Bool.not_eq_false] at hb
  have hz := emojiCounts_blank t hb
  unfold totalEmoji posEmoji negEmoji neuEmoji at h
  rw [hz] at h
  simp at h

lemma detectSentiment_blank (t : List Char) (h : t.all isWS = true) :
    detectSentiment t = none := by
  unfold detectSentiment
  rw [if_pos h]

lemma detectSentiment_agree (t : List Char) (he : 0 < totalEmoji t)
    (h2 : wordSentiment (lexScore t) ≠ Sentiment.neutral)
    (h3 : wordSentiment (lexScore t) = emojiSentiment t) :
    detectSentiment t =
      some (emojiSentiment t, min 0.99 (combinedConfidence t + 0.03)) := by
  unfold detectSentiment
  rw [if_neg (by simp [totalEmoji_pos_not_blank t he]), if_pos he, if_pos ⟨h2, h3⟩]

lemma detectSentiment_dominant (t : List Char) (he : 0 < totalEmoji t)
    (h2 : ¬(wordSentiment (lexScore t) ≠ Sentiment.neutral ∧
            wordSentiment (lexScore t) = emojiSentiment t))
    (h3 : 1 ≤ |(posEmoji t : ℤ) - (negEmoji t : ℤ)|) :
    detectSentiment t = some (emojiSentiment t, combinedConfidence t) := by
  unfold detectSentiment
  rw [if_neg (by simp [totalEmoji_pos_not_blank t he]), if_pos he, if_neg h2,
    if_pos h3]

lemma detectSentiment_fallback (t : List Char) (he : 0 < totalEmoji t)
    (h2 : ¬(wordSentiment (lexScore t) ≠ Sentiment.neutral ∧
            wordSentiment (lexScore t) = emojiSentiment t))
    (h3 : ¬(1 ≤ |(posEmoji t : ℤ) - (negEmoji t : ℤ)|)) :
    detectSentiment t = some (wordSentiment (lexScore t), lexConfidence t) := by
  unfold detectSentiment
  rw [if_neg (by simp [totalEmoji_pos_not_blank t he]), if_pos he, if_neg h2,
    if_neg h3]

lemma detectSentiment_lexical (t : List Char) (h0 : t.all isWS = false)
    (he : totalEmoji t = 0) (ht : (tokenize t).length ≠ 0) :
    detectSentiment t = some (wordSentiment (lexScore t), lexConfidence t) := by
  unfold detectSentiment
  rw [if_neg (by simp [h0]), if_neg (by omega), if_neg ht]

lemma detectSentiment_noSignal (t : List Char) (he : totalEmoji t = 0)
    (ht : (tokenize t).length = 0) : detectSentiment t = none := by
  unfold detectSentiment
  by_cases h0 : t.all isWS
  · rw [if_pos h0]
  · rw [if_neg h0, if_neg (by omega), if_pos ht]

lemma detectSentiment_eq_none_iff (t : List Char) :
    detectSentiment t = none ↔
      t.all isWS = true ∨ (totalEmoji t = 0 ∧ tokenize t = []) := by
  constructor
  · intro h
    by_cases h0 : t.all isWS
    · exact Or.inl h0
    · right
      unfold detectSentiment at h
      rw [if_neg h0] at h
      by_cases he : 0 < totalEmoji t
      · rw [if_pos he] at h
        split_ifs at h
      · refine ⟨by omega, ?_⟩
        rw [if_neg he] at h
        by_cases ht : (tokenize t).length = 0
        · exact List.length_eq_zero.mp ht
        · rw [if_neg ht] at h
          simp at h
  · rintro (h | ⟨he, ht⟩)
    · exact detectSentiment_blank t h
    · exact detectSentiment_noSignal t he (by rw [ht]; rfl)

lemma emojiSentiment_tie (t : List Char) (h : posEmoji t = negEmoji t) :
    emojiSentiment t = Sentiment.neutral := by
  unfold emojiSentiment
  rw [if_neg (by omega), if_neg (by omega)]

/-! ### Confidence bounds -/

lemma wordConfidence_bounds (s : ℚ) (n : ℕ) :
    0.6 ≤ wordConfidence s n ∧ wordConfidence s n ≤ 0.95 := by
  unfold wordConfidence
  have h1 : (0:ℝ) ≤ |(s : ℝ)| / max 1 (Real.sqrt n) :=
    div_nonneg (abs_nonneg _) (le_trans zero_le_one (le_max_left _ _))
  have h2 : (0:ℝ) ≤ min 1 (|(s : ℝ)| / max 1 (Real.sqrt n)) := le_min zero_le_one h1
  have h3 : (0:ℝ) ≤ min 1 (|(s : ℝ)| / max 1 (Real.sqrt n)) * 0.35 :=
    mul_nonneg h2 (by norm_num)
  exact ⟨le_min (by norm_num) (by linarith), min_le_left _ _⟩

lemma lexConfidence_bounds (t : List Char) :
    0.6 ≤ lexConfidence t ∧ lexConfidence t ≤ 0.95 :=
  wordConfidence_bounds _ _

lemma emojiConfidenceBase_bounds (t : List Char) :
    (3/4 : ℚ) ≤ emojiConfidenceBase t ∧ emojiConfidenceBase t ≤ 19/20 := by
  unfold emojiConfidenceBase
  have h1 : (0:ℚ) ≤ min 0.2 ((totalEmoji t : ℚ) / 10) :=
    le_min (by norm_num) (by positivity)
  have h2 : min (0.2:ℚ) ((totalEmoji t : ℚ) / 10) ≤ 0.2 := min_le_left _ _
  exact ⟨by linarith, by linarith⟩

lemma combinedConfidence_bounds (t : List Char) :
    0 ≤ combinedConfidence t ∧ combinedConfidence t ≤ 0.98 := by
  unfold combinedConfidence
  have hb0 : ((3/4 : ℚ) : ℝ) ≤ (emojiConfidenceBase t : ℝ) :=
    Rat.cast_le.mpr (emojiConfidenceBase_bounds t).1
  have hb1 : (3/4 : ℝ) ≤ (emojiConfidenceBase t : ℝ) := by push_cast at hb0; linarith
  have hw := (lexConfidence_bounds t).1
  refine ⟨le_min (by norm_num) (by linarith), min_le_left _ _⟩

lemma boost_gt_combined (t : List Char) :
    combinedConfidence t < min 0.99 (combinedConfidence t + 0.03) := by
  have h := (combinedConfidence_bounds t).2
  exact lt_min (by linarith) (by linarith)

lemma boost_range (t : List Char) :
    0 ≤ min (0.99:ℝ) (combinedConfidence t + 0.03) ∧
      min (0.99:ℝ) (combinedConfidence t + 0.03) ≤ 0.99 := by
  have h := (combinedConfidence_bounds t).1
  exact ⟨le_min (by norm_num) (by linarith), min_le_left _ _⟩

/-! ### Lexicon facts and contribution lemmas -/

lemma negations_not_intensifiers : ∀ p ∈ negations, p ∉ intensifiers := by decide

lemma intensifiers_not_negations : ∀ p ∈ intensifiers, p ∉ negations := by decide

lemma positiveWords_not_negations : ∀ p ∈ positiveWords, p ∉ negations := by decide

lemma positiveWords_not_intensifiers : ∀ p ∈ positiveWords, p ∉ intensifiers := by
  decide

lemma negativeWords_not_positiveWords : ∀ w ∈ negativeWords, w ∉ positiveWords := by
  decide

lemma contrib_pos_after_negation (p w : List Char) (hp : p ∈ negations)
    (hw : w ∈ positiveWords) : contrib (some p) w = -1 := by
  simp only [contrib, adjustWeight]
  rw [if_pos hw, if_pos hp, if_neg (negations_not_intensifiers p hp)]
  norm_num

lemma contrib_neg_after_negation (p w : List Char) (hp : p ∈ negations)
    (hw : w ∈ negativeWords) : contrib (some p) w = 1 := by
  simp only [contrib, adjustWeight]
  rw [if_neg (negativeWords_not_positiveWords w hw), if_pos hw, if_pos hp,
    if_neg (negations_not_intensifiers p hp)]
  norm_num

lemma contrib_pos_after_intensifier (p w : List Char) (hp : p ∈ intensifiers)
    (hw : w ∈ positiveWords) : contrib (some p) w = 1.6 := by
  simp only [contrib, adjustWeight]
  rw [if_pos hw, if_neg (intensifiers_not_negations p hp), if_pos hp]
  norm_num

lemma contrib_neg_after_intensifier (p w : List Char) (hp : p ∈ intensifiers)
    (hw : w ∈ negativeWords) : contrib (some p) w = -1.6 := by
  simp only [contrib, adjustWeight]
  rw [if_neg (negativeWords_not_positiveWords w hw), if_pos hw,
    if_neg (intensifiers_not_negations p hp), if_pos hp]
  norm_num

lemma contrib_skip (prev : Option (List Char)) (w : List Char)
    (h1 : w ∉ positiveWords) (h2 : w ∉ negativeWords) : contrib prev w = 0 := by
  simp only [contrib]
  rw [if_neg h1, if_neg h2]

lemma contrib_ge_one_of_pos (prev : Option (List Char)) (p : List Char)
    (hprev : ∀ a, prev = some a → a ∉ negations) (hp : p ∈ positiveWords) :
    1 ≤ contrib prev p := by
  cases prev with
  | none =>
    simp only [contrib, adjustWeight]
    rw [if_pos hp]
  | some a =>
    have ha := hprev a rfl
    simp only [contrib, adjustWeight]
    rw [if_pos hp, if_neg ha]
    by_cases hi : a ∈ intensifiers
    · rw [if_pos hi]; norm_num
    · rw [if_neg hi]

lemma contrib_le_of_pos (prev : Option (List Char)) (w : List Char)
    (hw : w ∈ positiveWords) : contrib prev w ≤ 1.6 := by
  cases prev with
  | none =>
    simp only [contrib, adjustWeight]
    rw [if_pos hw]; norm_num
  | some a =>
    simp only [contrib, adjustWeight]
    rw [if_pos hw]
    by_cases hn : a ∈ negations
    · rw [if_pos hn]
      by_cases hi : a ∈ intensifiers
      · rw [if_pos hi]; norm_num
      · rw [if_neg hi]; norm_num
    · rw [if_neg hn]
      by_cases hi : a ∈ intensifiers
      · rw [if_pos hi]; norm_num
      · rw [if_neg hi]; norm_num

lemma contrib_nonpos_of_neg (prev : Option (List Char)) (w : List Char)
    (hprev : ∀ a, prev = some a → a ∉ negations) (hw1 : w ∉ positiveWords)
    (hw2 : w ∈ negativeWords) : contrib prev w ≤ 0 := by
  cases prev with
  | none =>
    simp only [contrib, adjustWeight]
    rw [if_neg hw1, if_pos hw2]; norm_num
  | some a =>
    have ha := hprev a rfl
    simp only [contrib, adjustWeight]
    rw [if_neg hw1, if_pos hw2, if_neg ha]
    by_cases hi : a ∈ intensifiers
    · rw [if_pos hi]; norm_num
    · rw [if_neg hi]; norm_num

lemma contrib_le_shift (prev : Option (List Char)) (p w : List Char)
    (hprev : ∀ a, prev = some a → a ∉ negations) (hp : p ∈ positiveWords) :
    contrib prev w ≤ 1 + contrib (some p) w := by
  have hpn : p ∉ negations := positiveWords_not_negations p hp
  have hpi : p ∉ intensifiers := positiveWords_not_intensifiers p hp
  by_cases hw : w ∈ positiveWords
  · have h1 : contrib (some p) w = 1 := by
      simp only [contrib, adjustWeight]
      rw [if_pos hw, if_neg hpn, if_neg hpi]
    have h2 := contrib_le_of_pos prev w hw
    rw [h1]; linarith
  · by_cases hw2 : w ∈ negativeWords
    · have h1 : contrib (some p) w = -1 := by
        simp only [contrib, adjustWeight]
        rw [if_neg hw, if_pos hw2, if_neg hpn, if_neg hpi]
      have h2 := contrib_nonpos_of_neg prev w hprev hw hw2
      rw [h1]; linarith
    · rw [contrib_skip prev w hw hw2, contrib_skip (some p) w hw hw2]
      norm_num

lemma lexScoreAux_insert_pos (p : List Char) (hp : p ∈ positiveWords)
    (ts1 ts2 : List (List Char)) :
    ∀ prev : Option (List Char),
      (∀ a, prev = some a → a ∉ negations) →
      (∀ w ∈ ts1 ++ ts2, w ∉ negations) →
      lexScoreAux prev (ts1 ++ ts2) ≤ lexScoreAux prev (ts1 ++ p :: ts2) := by
  induction ts1 with
  | nil =>
    intro prev hprev hneg
    cases ts2 with
    | nil =>
      simp only [List.nil_append, lexScoreAux]
      have := contrib_ge_one_of_pos prev p hprev hp
      linarith
    | cons w rest =>
      simp only [List.nil_append, lexScoreAux]
      have h1 := contrib_ge_one_of_pos prev p hprev hp
      have h2 := contrib_le_shift prev p w hprev hp
      linarith
  | cons a ts1 ih =>
    intro prev hprev hneg
    simp only [List.cons_append, lexScoreAux, List.append_eq]
    have ha : a ∉ negations := by
      apply hneg
      rw [List.cons_append]
      exact List.mem_cons_self a (ts1 ++ ts2)
    have hrest : ∀ w ∈ ts1 ++ ts2, w ∉ negations := by
      intro w hw
      apply hneg
      rw [List.cons_append]
      exact List.mem_cons_of_mem a hw
    have hih := ih (some a) (by intro b hb; injection hb with hb; exact hb ▸ ha) hrest
    linarith

lemma lexScoreAux_append_pair (a w : List Char) (xs : List (List Char)) :
    ∀ prev : Option (List Char),
      lexScoreAux prev (xs ++ [a, w]) =
        lexScoreAux prev (xs ++ [a]) + contrib (some a) w := by
  induction xs with
  | nil =>
    intro prev
    simp only [List.nil_append, lexScoreAux]
    ring
  | cons x xs ih =>
    intro prev
    simp only [List.cons_append, lexScoreAux, List.append_eq, ih]
    ring

/-! ### Concrete score evaluations -/

lemma score_not_good : lexScore "not good".toList = -1 := by
  have h : tokenize "not good".toList = ["not".toList, "good".toList] := by decide
  unfold lexScore lexScoreTokens
  rw [h]
  norm_num +decide [lexScoreAux, contrib, adjustWeight]

lemma score_not_bad : lexScore "not bad".toList = 1 := by
  have h : tokenize "not bad".toList = ["not".toList, "bad".toList] := by decide
  unfold lexScore lexScoreTokens
  rw [h]
  norm_num +decide [lexScoreAux, contrib, adjustWeight]

lemma score_good : lexScore "good".toList = 1 := by
  have h : tokenize "good".toList = ["good".toList] := by decide
  unfold lexScore lexScoreTokens
  rw [h]
  norm_num +decide [lexScoreAux, contrib, adjustWeight]

lemma score_very_good : lexScore "very good".toList = 1.6 := by
  have h : tokenize "very good".toList = ["very".toList, "good".toList] := by decide
  unfold lexScore lexScoreTokens
  rw [h]
  norm_num +decide [lexScoreAux, contrib, adjustWeight]

lemma score_not_very_good : lexScore "not very good".toList = 1.6 := by
  have h : tokenize "not very good".toList =
      ["not".toList, "very".toList, "good".toList] := by decide
  unfold lexScore lexScoreTokens
  rw [h]
  norm_num +decide [lexScoreAux, contrib, adjustWeight]

lemma score_smile_great : lexScore "😊 great".toList = 1 := by
  have h : tokenize "😊 great".toList = ["great".toList] := by decide
  unfold lexScore lexScoreTokens
  rw [h]
  norm_num +decide [lexScoreAux, contrib, adjustWeight]

lemma score_tie_input : lexScore "😊 😢 terrible".toList = -1 := by
  have h : tokenize "😊 😢 terrible".toList = ["terrible".toList] := by decide
  unfold lexScore lexScoreTokens
  rw [h]
  norm_num +decide [lexScoreAux, contrib, adjustWeight]

lemma score_dominant_input : lexScore "😊😊😊 terrible".toList = -1 := by
  have h : tokenize "😊😊😊 terrible".toList = ["terrible".toList] := by decide
  unfold lexScore lexScoreTokens
  rw [h]
  norm_num +decide [lexScoreAux, contrib, adjustWeight]

lemma wordSentiment_neg_one : wordSentiment (-1) = Sentiment.negative := by
  norm_num [wordSentiment]

lemma wordSentiment_one : wordSentiment 1 = Sentiment.positive := by
  norm_num [wordSentiment]

lemma wordSentiment_eight_fifths : wordSentiment 1.6 = Sentiment.positive := by
  norm_num [wordSentiment]

/-! ### The two-code-point emoji entries never match the scan -/

lemma mem_filter_singleton (c : Char) (l : List (List Char)) :
    [c] ∈ l.filter (fun e => e.length == 1) ↔ [c] ∈ l := by
  simp [List.mem_filter]

lemma emojiCounts_eq_pruned (t : List Char) : emojiCounts t = emojiCountsPruned t := by
  induction t with
  | nil => rfl
  | cons c cs ih =>
    simp only [emojiCounts, emojiCountsPruned, ih]
    by_cases h1 : [c] ∈ positiveEmojis
    · rw [if_pos h1, if_pos ((mem_filter_singleton c positiveEmojis).mpr h1)]
    · rw [if_neg h1,
        if_neg (fun hc => h1 ((mem_filter_singleton c positiveEmojis).mp hc))]
      by_cases h2 : [c] ∈ negativeEmojis
      · rw [if_pos h2, if_pos ((mem_filter_singleton c negativeEmojis).mpr h2)]
      · rw [if_neg h2,
          if_neg (fun hc => h2 ((mem_filter_singleton c negativeEmojis).mp hc))]
        by_cases h3 : [c] ∈ neutralEmojis
        · rw [if_pos h3, if_pos ((mem_filter_singleton c neutralEmojis).mpr h3)]
        · rw [if_neg h3,
            if_neg (fun hc => h3 ((mem_filter_singleton c neutralEmojis).mp hc))]

/-! ### Claim theorems -/

/-- C1 (counterexample): the input consisting exactly of the two-code-point
heart string "❤️" — itself a member of the fixed positive emoji set — is
classified as absent, refuting the claim that any input containing an emoji
from the fixed sets yields a present result. -/
theorem heart_input_absent :
    "❤️".toList ∈ positiveEmojis ∧
      detectSentiment "❤️".toList = none :=
  ⟨by decide, detectSentiment_noSignal _ (by decide) (by decide)⟩

/-- C1 (amended): `classify` returns an absent result if and only if the
input is empty/whitespace-only, or the per-code-point emoji scan counts
zero emoji and the input tokenizes to zero words; every other input yields
a present result.  (The two-code-point set entries are never counted by
the scan, so "❤️" alone is absent, not present.) -/
theorem classify_absent_iff (t : List Char) :
    detectSentiment t = none ↔
      t.all isWS = true ∨ (totalEmoji t = 0 ∧ tokenize t = []) :=
  detectSentiment_eq_none_iff t

/-- C2: every present result has confidence in [0, 0.99]; every present
result produced with zero emoji counted (the purely lexical path) has
confidence in [0.6, 0.95]. -/
theorem confidence_in_range (t : List Char) (r : Sentiment × ℝ)
    (h : detectSentiment t = some r) :
    (0 ≤ r.2 ∧ r.2 ≤ 0.99) ∧
      (totalEmoji t = 0 → 0.6 ≤ r.2 ∧ r.2 ≤ 0.95) := by
  unfold detectSentiment at h
  split_ifs at h with h0 he ha hd ht
  · simp only [Option.some.injEq] at h
    subst h
    have hb := boost_range t
    exact ⟨⟨hb.1, hb.2⟩, fun hz => absurd hz (by omega)⟩
  · simp only [Option.some.injEq] at h
    subst h
    have hb := combinedConfidence_bounds t
    exact ⟨⟨hb.1, le_trans hb.2 (by norm_num)⟩, fun hz => absurd hz (by omega)⟩
  · simp only [Option.some.injEq] at h
    subst h
    have hb := lexConfidence_bounds t
    exact ⟨⟨le_trans (by norm_num) hb.1, le_trans hb.2 (by norm_num)⟩,
      fun hz => absurd hz (by omega)⟩
  · simp only [Option.some.injEq] at h
    subst h
    have hb := lexConfidence_bounds t
    exact ⟨⟨le_trans (by norm_num) hb.1, le_trans hb.2 (by norm_num)⟩,
      fun _ => ⟨hb.1, hb.2⟩⟩

/-- C2 (witness): the range theorem instantiated at the concrete
input "good", whose result is present via the purely lexical path. -/
theorem confidence_in_range_witness :
    (0 ≤ lexConfidence "good".toList ∧ lexConfidence "good".toList ≤ 0.99) ∧
      (totalEmoji "good".toList = 0 →
        0.6 ≤ lexConfidence "good".toList ∧
          lexConfidence "good".toList ≤ 0.95) :=
  confidence_in_range "good".toList
    (wordSentiment (lexScore "good".toList), lexConfidence "good".toList)
    (detectSentiment_lexical "good".toList (by decide) (by decide) (by decide))

/-- C3: when emoji are present but the positive and negative emoji counts
are exactly equal and the lexical label is neutral or disagrees with the
dominant emoji label, the classifier returns the lexical label with the
plain lexical confidence; in particular "😊 😢 terrible" classifies as
negative with the lexical confidence. -/
theorem emoji_tie_lexical_fallback :
    (∀ t : List Char, 0 < totalEmoji t → posEmoji t = negEmoji t →
        (wordSentiment (lexScore t) = Sentiment.neutral ∨
          wordSentiment (lexScore t) ≠ emojiSentiment t) →
        detectSentiment t = some (wordSentiment (lexScore t), lexConfidence t)) ∧
      detectSentiment "😊 😢 terrible".toList =
        some (Sentiment.negative, lexConfidence "😊 😢 terrible".toList) := by
  have hgen : ∀ t : List Char, 0 < totalEmoji t → posEmoji t = negEmoji t →
      (wordSentiment (lexScore t) = Sentiment.neutral ∨
        wordSentiment (lexScore t) ≠ emojiSentiment t) →
      detectSentiment t = some (wordSentiment (lexScore t), lexConfidence t) := by
    intro t he htie _hdis
    apply detectSentiment_fallback t he
    · rintro ⟨hne, heq⟩
      rw [emojiSentiment_tie t htie] at heq
      exact hne heq
    · rw [htie]
      simp
  refine ⟨hgen, ?_⟩
  have h := hgen "😊 😢 terrible".toList (by decide) (by decide)
    (by rw [score_tie_input, wordSentiment_neg_one]; right; decide)
  rw [h, score_tie_input, wordSentiment_neg_one]

/-- C3 (witness): the general tie-fallback statement instantiated at the
concrete input "😊 😢 terrible". -/
theorem emoji_tie_lexical_fallback_witness :
    detectSentiment "😊 😢 terrible".toList =
      some (wordSentiment (lexScore "😊 😢 terrible".toList),
        lexConfidence "😊 😢 terrible".toList) :=
  emoji_tie_lexical_fallback.1 "😊 😢 terrible".toList (by decide) (by decide)
    (by rw [score_tie_input, wordSentiment_neg_one]; right; decide)

/-- C4: when emoji are present, the lexical label is non-neutral and equals
the dominant emoji label, the classifier returns that label with confidence
`min(0.99, combined + 0.03)`, strictly greater than the combined
confidence; in particular for "😊 great". -/
theorem agreement_bonus :
    (∀ t : List Char, 0 < totalEmoji t →
        wordSentiment (lexScore t) ≠ Sentiment.neutral →
        wordSentiment (lexScore t) = emojiSentiment t →
        detectSentiment t =
            some (emojiSentiment t, min 0.99 (combinedConfidence t + 0.03)) ∧
          combinedConfidence t < min 0.99 (combinedConfidence t + 0.03)) ∧
      (detectSentiment "😊 great".toList =
          some (Sentiment.positive,
            min 0.99 (combinedConfidence "😊 great".toList + 0.03)) ∧
        combinedConfidence "😊 great".toList <
          min 0.99 (combinedConfidence "😊 great".toList + 0.03)) := by
  have hgen : ∀ t : List Char, 0 < totalEmoji t →
      wordSentiment (lexScore t) ≠ Sentiment.neutral →
      wordSentiment (lexScore t) = emojiSentiment t →
      detectSentiment t =
          some (emojiSentiment t, min 0.99 (combinedConfidence t + 0.03)) ∧
        combinedConfidence t < min 0.99 (combinedConfidence t + 0.03) :=
    fun t he h2 h3 => ⟨detectSentiment_agree t he h2 h3, boost_gt_combined t⟩
  refine ⟨hgen, ?_⟩
  have hes : emojiSentiment "😊 great".toList = Sentiment.positive := by decide
  have h := hgen "😊 great".toList (by decide)
    (by rw [score_smile_great, wordSentiment_one]; decide)
    (by rw [score_smile_great, wordSentiment_one, hes])
  rw [hes] at h
  exact h

/-- C4 (witness): the agreement-bonus statement instantiated at the
concrete input "😊 great". -/
theorem agreement_bonus_witness :
    detectSentiment "😊 great".toList =
        some (emojiSentiment "😊 great".toList,
          min 0.99 (combinedConfidence "😊 great".toList + 0.03)) ∧
      combinedConfidence "😊 great".toList <
        min 0.99 (combinedConfidence "😊 great".toList + 0.03) :=
  agreement_bonus.1 "😊 great".toList (by decide)
    (by rw [score_smile_great, wordSentiment_one]; decide)
    (by rw [score_smile_great, wordSentiment_one]; decide)

/-- C5: when emoji are present, the lexical label disagrees with the
dominant emoji label, and the positive and negative emoji counts differ by
at least 1, the classifier returns the dominant emoji label with the
combined confidence; in particular "😊😊😊 terrible" classifies as
positive. -/
theorem emoji_dominance :
    (∀ t : List Char, 0 < totalEmoji t →
        wordSentiment (lexScore t) ≠ emojiSentiment t →
        1 ≤ |(posEmoji t : ℤ) - (negEmoji t : ℤ)| →
        detectSentiment t = some (emojiSentiment t, combinedConfidence t)) ∧
      detectSentiment "😊😊😊 terrible".toList =
        some (Sentiment.positive, combinedConfidence "😊😊😊 terrible".toList) := by
  have hgen : ∀ t : List Char, 0 < totalEmoji t →
      wordSentiment (lexScore t) ≠ emojiSentiment t →
      1 ≤ |(posEmoji t : ℤ) - (negEmoji t : ℤ)| →
      detectSentiment t = some (emojiSentiment t, combinedConfidence t) := by
    intro t he hdis habs
    apply detectSentiment_dominant t he _ habs
    rintro ⟨_, heq⟩
    exact hdis heq
  refine ⟨hgen, ?_⟩
  have hes : emojiSentiment "😊😊😊 terrible".toList = Sentiment.positive := by
    decide
  have h := hgen "😊😊😊 terrible".toList (by decide)
    (by rw [score_dominant_input, wordSentiment_neg_one, hes]; decide) (by decide)
  rw [hes] at h
  exact h

/-- C5 (witness): the emoji-dominance statement instantiated at the
concrete input "😊😊😊 terrible". -/
theorem emoji_dominance_witness :
    detectSentiment "😊😊😊 terrible".toList =
      some (emojiSentiment "😊😊😊 terrible".toList,
        combinedConfidence "😊😊😊 terrible".toList) :=
  emoji_dominance.1 "😊😊😊 terrible".toList (by decide)
    (by rw [score_dominant_input, wordSentiment_neg_one]; decide) (by decide)

/-- C6: a negation token immediately preceding a lexicon word flips that
contribution sign of that word: a positive base word contributes -1 and a
negative base word contributes +1; the lexical score of "not good" is -1
(negative) and that of "not bad" is +1 (positive). -/
theorem negation_flips_contribution :
    (∀ p w : List Char, p ∈ negations → w ∈ positiveWords →
        contrib (some p) w = -1) ∧
      (∀ p w : List Char, p ∈ negations → w ∈ negativeWords →
        contrib (some p) w = 1) ∧
      lexScore "not good".toList = -1 ∧ lexScore "not good".toList < 0 ∧
      lexScore "not bad".toList = 1 ∧ 0 < lexScore "not bad".toList := by
  refine ⟨contrib_pos_after_negation, contrib_neg_after_negation,
    score_not_good, ?_, score_not_bad, ?_⟩
  · rw [score_not_good]; norm_num
  · rw [score_not_bad]; norm_num

/-- C6 (witness): the flip statements instantiated at the negation "not"
with the lexicon words "good" and "bad". -/
theorem negation_flips_contribution_witness :
    contrib (some "not".toList) "good".toList = -1 ∧
      contrib (some "not".toList) "bad".toList = 1 :=
  ⟨negation_flips_contribution.1 "not".toList "good".toList (by decide) (by decide),
   negation_flips_contribution.2.1 "not".toList "bad".toList (by decide) (by decide)⟩

/-- C7: an intensifier token immediately preceding a lexicon word scales
its contribution by 1.6 without changing the sign; the lexical score of
"very good" (1.6) strictly exceeds the positive score of "good" alone
(1). -/
theorem intensifier_scales_contribution :
    (∀ p w : List Char, p ∈ intensifiers → w ∈ positiveWords →
        contrib (some p) w = 1.6) ∧
      (∀ p w : List Char, p ∈ intensifiers → w ∈ negativeWords →
        contrib (some p) w = -1.6) ∧
      lexScore "very good".toList = 1.6 ∧ lexScore "good".toList = 1 ∧
      lexScore "good".toList < lexScore "very good".toList ∧
      0 < lexScore "good".toList := by
  refine ⟨contrib_pos_after_intensifier, contrib_neg_after_intensifier,
    score_very_good, score_good, ?_, ?_⟩
  · rw [score_good, score_very_good]; norm_num
  · rw [score_good]; norm_num

/-- C7 (witness): the scaling statements instantiated at the intensifier
"very" with the lexicon words "good" and "bad". -/
theorem intensifier_scales_contribution_witness :
    contrib (some "very".toList) "good".toList = 1.6 ∧
      contrib (some "very".toList) "bad".toList = -1.6 :=
  ⟨intensifier_scales_contribution.1 "very".toList "good".toList
      (by decide) (by decide),
   intensifier_scales_contribution.2.1 "very".toList "bad".toList
      (by decide) (by decide)⟩

/-- C8: each scoring step inspects only the single immediately preceding
token (the contribution of the last token depends only on it and its
immediate predecessor, whatever came before); for "not very good" the
intensifier "very" scales "good" to 1.6 and the negation "not" is never
applied, so the lexical score is 1.6 and the label is positive. -/
theorem single_token_lookback :
    (∀ (xs : List (List Char)) (a w : List Char),
        lexScoreTokens (xs ++ [a, w]) =
          lexScoreTokens (xs ++ [a]) + contrib (some a) w) ∧
      contrib (some "very".toList) "good".toList = 1.6 ∧
      lexScore "not very good".toList = 1.6 ∧
      wordSentiment (lexScore "not very good".toList) = Sentiment.positive := by
  refine ⟨?_, ?_, score_not_very_good, ?_⟩
  · intro xs a w
    exact lexScoreAux_append_pair a w xs none
  · exact contrib_pos_after_intensifier "very".toList "good".toList
      (by decide) (by decide)
  · rw [score_not_very_good, wordSentiment_eight_fifths]

/-- C9: inserting an occurrence of a positive-lexicon word anywhere into a
token sequence that contains no negation tokens never decreases the
lexical score (monotonicity of the lexical score; the emoji tally does not
depend on tokens, so emoji content is unaffected). -/
theorem positive_insertion_monotone :
    ∀ (ts1 ts2 : List (List Char)) (p : List Char), p ∈ positiveWords →
      (∀ w ∈ ts1 ++ ts2, w ∉ negations) →
      lexScoreTokens (ts1 ++ ts2) ≤ lexScoreTokens (ts1 ++ p :: ts2) := by
  intro ts1 ts2 p hp hneg
  exact lexScoreAux_insert_pos p hp ts1 ts2 none (fun a h => Option.noConfusion h)
    hneg

/-- C9 (witness): inserting "nice" before the token "good". -/
theorem positive_insertion_monotone_witness :
    lexScoreTokens ["good".toList] ≤
      lexScoreTokens ["nice".toList, "good".toList] :=
  positive_insertion_monotone [] ["good".toList] "nice".toList
    (by decide) (by decide)

/-- C10: no single code point equals either two-code-point emoji entry
(the heart and the frowning face with variation selector), the emoji tally
is unchanged when those entries are removed from the sets (they never
increment any counter), and consequently the input consisting exactly of
"❤️" is classified as absent. -/
theorem variation_selector_entries_unmatched :
    (∀ c : Char, [c] ≠ "❤️".toList ∧ [c] ≠ "☹️".toList) ∧
      (∀ t : List Char, emojiCounts t = emojiCountsPruned t) ∧
      detectSentiment "❤️".toList = none := by
  refine ⟨?_, emojiCounts_eq_pruned,
    detectSentiment_noSignal _ (by decide) (by decide)⟩
  intro c
  constructor
  · intro h
    have hl := congrArg List.length h
    simp at hl
  · intro h
    have hl := congrArg List.length h
    simp at hl
